import Mathlib

/-!
Verification development for the self-healing web-application framework.

The definitions below are a shallow embedding of the core subsystems:
the healing system (src/healing/healing-system.ts), the testing engine
(src/testing/testing-engine.ts) and the deployment manager
(src/deployment/deployment-manager.ts), over the data model of
src/types.ts.  File trees are modelled as association lists from paths
to contents; external effects (process execution, the reasoning
service, the network) are supplied by explicit oracle records, so every
function is a pure, executable translation of the corresponding source
method.
-/

namespace AutoWeb

/-- Severity levels of a detected error (types.ts, ErrorInfo.severity). -/
inductive Severity
  | low
  | medium
  | high
  | critical
  deriving DecidableEq

/-- Kinds of a detected error (types.ts, ErrorInfo.type).  The source
literal named like the Lean keyword for grammars is rendered `syn`. -/
inductive ErrorKind
  | syn
  | runtime
  | performance
  | security
  | ux
  deriving DecidableEq

/-- One detected defect (types.ts, ErrorInfo). -/
structure ErrorInfo where
  id : String
  kind : ErrorKind
  severity : Severity
  file : String
  line : Nat
  message : String
  fix_attempted : Bool
  fix_successful : Bool
  timestamp : Nat
  deriving DecidableEq

/-- Operation of a single file-level edit (types.ts, FileChange.type). -/
inductive ChangeKind
  | create
  | update
  | delete
  deriving DecidableEq

/-- One file-level edit (types.ts, FileChange). -/
structure FileChange where
  file : String
  kind : ChangeKind
  new_content : Option String
  deriving DecidableEq

/-- Reference to the backup taken before a fix (types.ts, RollbackInfo). -/
structure RollbackInfo where
  backup_id : String
  timestamp : Nat
  files : List String
  deriving DecidableEq

/-- A proposed fix for one error (types.ts, Fix). -/
structure Fix where
  id : String
  error_id : String
  description : String
  changes : List FileChange
  confidence : ℚ
  tested : Bool
  applied : Bool
  rollback_info : RollbackInfo
  deriving DecidableEq

/-- The healing configuration fields the healing system reads
(types.ts, HealingConfig). -/
structure HealingConfig where
  rollbackThreshold : Nat
  deriving DecidableEq

/-- The testing configuration field the healing system reads
(types.ts, TestingConfig.autoFix). -/
structure TestingConfig where
  autoFix : Bool
  deriving DecidableEq

/-- The slice of FrameworkConfig the healing system reads. -/
structure Config where
  healing : HealingConfig
  testing : TestingConfig
  deriving DecidableEq

/-! ### File-tree model

The application's working tree (workspace/apps/appId) is a flat
association list from relative paths to file contents.  Directories are
implicit, as the source only ever reads, writes, copies and removes
regular files wholesale. -/

/-- A file tree: path-to-contents association list. -/
abbrev Tree := List (String × String)

/-- fs.pathExists for a file of a tree. -/
def pathExistsIn (t : Tree) (f : String) : Bool :=
  t.any (fun p => p.1 == f)

/-- fs.writeFile: overwrite the file when present, append it otherwise. -/
def writeFileIn (t : Tree) (f c : String) : Tree :=
  if pathExistsIn t f then
    t.map (fun p => if p.1 == f then (f, c) else p)
  else
    t ++ [(f, c)]

/-- fs.remove of a single file. -/
def removeFileIn (t : Tree) (f : String) : Tree :=
  t.filter (fun p => p.1 != f)

/-- The per-application state the healing system touches: the working
tree and the backup store (workspace/backups/appId/backupId), the
latter paired with the in-memory backupHistory. -/
structure FsState where
  appTree : Tree
  backups : List (String × Tree)
  deriving DecidableEq

/-! ### Healing system (src/healing/healing-system.ts) -/

namespace HealingSystem

/-- listFiles (healing-system.ts:832): the relative paths of the tree.
In this model the tree holds only regular project files, so the
dot-directory and node_modules filters of the source are identities. -/
def listFiles (t : Tree) : List String :=
  t.map Prod.fst

/-- createBackup (healing-system.ts:594): copy the working tree into a
fresh backup keyed by `bid` and append it to the backup history.  The
fresh id and timestamp, produced from Date.now in the source, are
passed in. -/
def createBackup (st : FsState) (bid : String) (now : Nat) :
    RollbackInfo × FsState :=
  (⟨bid, now, listFiles st.appTree⟩,
   { st with backups := st.backups ++ [(bid, st.appTree)] })

/-- applyFileChange (healing-system.ts:641).  `none` models the thrown
"File not found" of an update whose target is missing; `delete` of a
missing file is a no-op. -/
def applyFileChange (t : Tree) (c : FileChange) : Option Tree :=
  match c.kind with
  | .create => some (writeFileIn t c.file (c.new_content.getD ""))
  | .update =>
    if pathExistsIn t c.file then
      some (writeFileIn t c.file (c.new_content.getD ""))
    else
      none
  | .delete => some (removeFileIn t c.file)

/-- applyFix (healing-system.ts:624): apply each change in order; the
first failing change aborts the loop, the earlier writes stand, and
the method returns false. -/
def applyChanges (t : Tree) : List FileChange → Bool × Tree
  | [] => (true, t)
  | c :: cs =>
    match applyFileChange t c with
    | none => (false, t)
    | some t2 => applyChanges t2 cs

/-- Results of the three validation stages testFix runs (lint,
tsc --noEmit, npm test), each an external process. -/
structure ValidationOracle where
  lintOk : Bool
  typeOk : Bool
  testsOk : Bool
  deriving DecidableEq

/-- testFix (healing-system.ts:664): skipped (true) when the auto-fix
testing switch is off; otherwise short-circuits over lint, type check
and quick tests. -/
def testFix (autoFix : Bool) (v : ValidationOracle) : Bool :=
  if autoFix then v.lintOk && v.typeOk && v.testsOk else true

/-- rollback (healing-system.ts:768): restore the tree from the backup
directory when it exists; `none` models the thrown "Backup not
found". -/
def rollback (st : FsState) (backup : RollbackInfo) : Option FsState :=
  match st.backups.lookup backup.backup_id with
  | some btree => some { st with appTree := btree }
  | none => none

/-- The external effects one fixError call consumes: the fresh backup
id and timestamp, the reasoning-service proposal (generateFix's result,
`none` when no provider, a provider error, or an unparseable response)
and the validation outcomes. -/
structure FixOracle where
  backupId : String
  now : Nat
  genFix : Option Fix
  validation : ValidationOracle
  deriving DecidableEq

/-- A default oracle for exhausted oracle streams: no proposal. -/
def defaultFixOracle : FixOracle :=
  ⟨"", 0, none, ⟨true, true, true⟩⟩

/-- What one fixError call returns and leaves behind. -/
structure FixResult where
  fix : Option Fix
  err : ErrorInfo
  state : FsState
  deriving DecidableEq

/-- fixError (healing-system.ts:100).  Steps, as in the source: create
a backup; ask generateFix for a proposal (null aborts, error record
untouched); apply the changes (failure rolls back and returns null);
validate via testFix; a failed validation with rollbackThreshold > 0
rolls back and returns the fix with applied=false; otherwise mark the
fix applied/tested, mark the error attempted/successful.  A throwing
rollback is caught by the outer catch, which returns null. -/
def fixError (cfg : Config) (o : FixOracle) (st : FsState)
    (err : ErrorInfo) : FixResult :=
  let bk := createBackup st o.backupId o.now
  let backup := bk.1
  let st1 := bk.2
  match o.genFix with
  | none => ⟨none, err, st1⟩
  | some fix0 =>
    let fix : Fix := { fix0 with tested := false, applied := false }
    let ap := applyChanges st1.appTree fix.changes
    let st2 : FsState := { st1 with appTree := ap.2 }
    if !ap.1 then
      match rollback st2 backup with
      | some st3 => ⟨none, err, st3⟩
      | none => ⟨none, err, st2⟩
    else
      let testPassed := testFix cfg.testing.autoFix o.validation
      if !testPassed && cfg.healing.rollbackThreshold > 0 then
        match rollback st2 backup with
        | some st3 => ⟨some { fix with applied := false }, err, st3⟩
        | none => ⟨none, err, st2⟩
      else
        ⟨some { fix with applied := true, tested := testPassed,
                         rollback_info := backup },
         { err with fix_attempted := true,
                    fix_successful := ap.1 && testPassed },
         st2⟩

/-- The severity gate of processHealingQueue (healing-system.ts:798):
only critical and high severity errors are auto-processed. -/
def isAutoSeverity (s : Severity) : Bool :=
  s == .critical || s == .high

/-- The per-error loop of processHealingQueue (healing-system.ts:797):
fixError is invoked exactly for critical/high entries, threading the
file-system state; other entries are left untouched.  `os k` supplies
the external effects of the (k+1)-th fix attempt of the sweep.
Returns the final state, the error records after the sweep (in order)
and the ids of the entries a fix attempt was made for. -/
def sweepErrors (cfg : Config) (os : Nat → FixOracle) :
    Nat → FsState → List ErrorInfo →
      FsState × List ErrorInfo × List String
  | _, st, [] => (st, [], [])
  | k, st, e :: es =>
    if isAutoSeverity e.severity then
      let r := fixError cfg (os k) st e
      let rest := sweepErrors cfg os (k + 1) r.state es
      (rest.1, r.err :: rest.2.1, e.id :: rest.2.2)
    else
      let rest := sweepErrors cfg os k st es
      (rest.1, e :: rest.2.1, rest.2.2)

/-- processHealingQueue (healing-system.ts:789) at the queue-map level:
look up the application's entry (absent or empty does nothing), sweep
its errors, then delete the entry (healingQueue.delete). -/
def processHealingQueue (cfg : Config) (os : Nat → FixOracle)
    (st : FsState) (queue : List (String × List ErrorInfo))
    (appId : String) :
    FsState × List (String × List ErrorInfo) × List ErrorInfo ×
      List String :=
  match queue.lookup appId with
  | none => (st, queue, [], [])
  | some [] => (st, queue, [], [])
  | some errs =>
    let r := sweepErrors cfg os 0 st errs
    (r.1, queue.filter (fun p => p.1 != appId), r.2.1, r.2.2)

end HealingSystem

/-! ### Analyzer normalization (healing-system.ts, runESLint / auditDirectory)

Tool invocations are external processes; an invocation outcome is
modelled by its exit status and by whether its stdout parses as the
tool's JSON format.  `Raw` carries already-parsed diagnostics because
only parseability, not concrete JSON text, matters to the control
flow. -/

namespace Analyzers

/-- One ESLint message (the fields runESLint reads). -/
structure LintMessage where
  severity : Nat
  line : Nat
  message : String
  deriving DecidableEq

/-- One ESLint per-file result (the fields runESLint reads). -/
structure LintResult where
  filePath : String
  messages : List LintMessage
  deriving DecidableEq

/-- The normalization of one ESLint message
(healing-system.ts:265-275): kind syntax, severity 2 maps to high and
anything else to medium.  The fresh id of the source is a fixed tag
here. -/
def normalizeLintMessage (filePath : String) (m : LintMessage) :
    ErrorInfo :=
  { id := "eslint", kind := .syn,
    severity := if m.severity == 2 then .high else .medium,
    file := filePath, line := m.line, message := m.message,
    fix_attempted := false, fix_successful := false, timestamp := 0 }

/-- Outcome of `npm run lint -- --format json`. -/
inductive LintExec
  | zeroExit (results : List LintResult)
  | nonZeroParseable (results : List LintResult)
  | nonZeroUnparseable
  | nonZeroNoStdout
  deriving DecidableEq

/-- runESLint (healing-system.ts:251): on exit 0 the parsed results are
normalized; on a non-zero exit the catch block parses error.stdout when
present but the parsed results are never converted (the loop body is
only a comment at line 285), so every non-zero-exit branch returns the
empty list. -/
def runESLint : LintExec → List ErrorInfo
  | .zeroExit rs =>
    rs.flatMap (fun r => r.messages.map (normalizeLintMessage r.filePath))
  | .nonZeroParseable _ => []
  | .nonZeroUnparseable => []
  | .nonZeroNoStdout => []

/-- Modelled from the spec: the analyzer contract of section 4.2, under
which a non-zero exit with parseable diagnostics (the normal outcome
when issues exist) still yields the normalized records, and only a
failure to invoke the tool degrades to zero findings. -/
def runESLintSpec : LintExec → List ErrorInfo
  | .zeroExit rs =>
    rs.flatMap (fun r => r.messages.map (normalizeLintMessage r.filePath))
  | .nonZeroParseable rs =>
    rs.flatMap (fun r => r.messages.map (normalizeLintMessage r.filePath))
  | .nonZeroUnparseable => []
  | .nonZeroNoStdout => []

/-- One npm-audit advisory (the fields auditDirectory reads). -/
structure AuditVuln where
  name : String
  severity : String
  title : String
  deriving DecidableEq

/-- The normalization of one advisory (healing-system.ts:423-433):
kind security; critical and high are copied, anything else becomes
medium. -/
def normalizeVuln (sub : String) (v : AuditVuln) : ErrorInfo :=
  { id := "security", kind := .security,
    severity :=
      if v.severity == "critical" then .critical
      else if v.severity == "high" then .high
      else .medium,
    file := "package.json (" ++ sub ++ ")", line := 0,
    message := "Security vulnerability in " ++ v.name ++ ": " ++ v.title,
    fix_attempted := false, fix_successful := false, timestamp := 0 }

/-- Outcome of `npm audit --json`. -/
inductive AuditExec
  | zeroExit (vulns : List AuditVuln)
  | nonZeroParseable (vulns : List AuditVuln)
  | nonZeroUnparseable
  | nonZeroNoStdout
  deriving DecidableEq

/-- auditDirectory (healing-system.ts:409): on exit 0 the
vulnerabilities are normalized; on a non-zero exit (which npm audit
uses whenever vulnerabilities exist) the catch block parses
error.stdout but never converts it (line 442 is only a comment), so
every non-zero-exit branch returns the empty list. -/
def auditDirectory (sub : String) : AuditExec → List ErrorInfo
  | .zeroExit vs => vs.map (normalizeVuln sub)
  | .nonZeroParseable _ => []
  | .nonZeroUnparseable => []
  | .nonZeroNoStdout => []

/-- Modelled from the spec: the audit half of the section 4.2 contract,
returning normalized findings also on the tool's non-zero exit. -/
def auditDirectorySpec (sub : String) : AuditExec → List ErrorInfo
  | .zeroExit vs => vs.map (normalizeVuln sub)
  | .nonZeroParseable vs => vs.map (normalizeVuln sub)
  | .nonZeroUnparseable => []
  | .nonZeroNoStdout => []

end Analyzers

/-! ### Testing engine (src/testing/testing-engine.ts) -/

namespace TestingEngine

/-- Status of a single test case (types.ts, TestCase.status). -/
inductive CaseStatus
  | pending
  | running
  | passed
  | failed
  | skipped
  deriving DecidableEq

/-- Aggregate status of a suite (types.ts, TestSuite.status). -/
inductive SuiteStatus
  | pending
  | running
  | passed
  | failed
  deriving DecidableEq

/-- One test case result (the fields the engine computes with). -/
structure TestCase where
  id : String
  name : String
  status : CaseStatus
  deriving DecidableEq

/-- One suite result (the fields the engine computes with). -/
structure TestSuite where
  id : String
  name : String
  tests : List TestCase
  status : SuiteStatus
  coverage : ℤ
  deriving DecidableEq

/-- The aggregation predicate every suite builder applies:
tests.every(test => test.status === 'passed'). -/
def allPassed (tests : List TestCase) : Bool :=
  tests.all (fun c => c.status == .passed)

/-- calculateCoverage (testing-engine.ts:641): the share of passed
cases times 100, Math.round-ed (round half up, as `round` on ℚ), and 0
for an empty list. -/
def calculateCoverage (tests : List TestCase) : ℤ :=
  let passed := (tests.filter (fun c => c.status == .passed)).length
  if tests.length > 0 then
    round (((passed : ℚ) / (tests.length : ℚ)) * 100)
  else
    0

/-- The synthetic failing case a catch block pushes
(testing-engine.ts:115, 326, 388). -/
def syntheticFailCase (name : String) : TestCase :=
  ⟨"error", name, .failed⟩

/-- runUnitTests (testing-engine.ts:76).  `genOk` is whether
generateUnitTests succeeded (it writes skeleton tests and can throw);
the frontend/backend case lists are the outcomes of runJestTests,
which catches its own errors and returns a synthetic failing case, so
it never throws.  On the success path the status is the all-passed
aggregate and coverage is calculateCoverage; the catch path records a
synthetic failing case and leaves coverage at 0. -/
def runUnitTests (genOk : Bool) (hasFrontend hasBackend : Bool)
    (frontendCases backendCases : List TestCase) : TestSuite :=
  if genOk then
    let tests := (if hasFrontend then frontendCases else []) ++
      (if hasBackend then backendCases else [])
    { id := "unit", name := "Unit Tests", tests := tests,
      status := if allPassed tests then .passed else .failed,
      coverage := calculateCoverage tests }
  else
    { id := "unit", name := "Unit Tests",
      tests := [syntheticFailCase "Unit Test Execution"],
      status := .failed, coverage := 0 }

/-- runIntegrationTests (testing-engine.ts:278).  `setupOk` is whether
startApplication and waitForServer succeeded; the API, database and
authentication helpers are stubs returning no cases
(testing-engine.ts:579-592). -/
def runIntegrationTests (setupOk : Bool) : TestSuite :=
  if setupOk then
    let tests : List TestCase := []
    { id := "integration", name := "Integration Tests", tests := tests,
      status := if allPassed tests then .passed else .failed,
      coverage := 0 }
  else
    { id := "integration", name := "Integration Tests",
      tests := [syntheticFailCase "Integration Test Setup"],
      status := .failed, coverage := 0 }

/-- runE2ETests (testing-engine.ts:340); the journey, form and
navigation helpers are stubs returning no cases. -/
def runE2ETests (setupOk : Bool) : TestSuite :=
  if setupOk then
    let tests : List TestCase := []
    { id := "e2e", name := "End-to-End Tests", tests := tests,
      status := if allPassed tests then .passed else .failed,
      coverage := 0 }
  else
    { id := "e2e", name := "End-to-End Tests",
      tests := [syntheticFailCase "E2E Test Setup"],
      status := .failed, coverage := 0 }

/-- The case runLighthouseAudit returns (testing-engine.ts:609). -/
def lighthouseCase : TestCase :=
  ⟨"lighthouse", "Lighthouse Performance Audit", .passed⟩

/-- runPerformanceTests (testing-engine.ts:402): lighthouse case plus
the load-test stub; the catch path sets status failed without pushing
any case. -/
def runPerformanceTests (setupOk : Bool) : TestSuite :=
  if setupOk then
    let tests := [lighthouseCase]
    { id := "performance", name := "Performance Tests", tests := tests,
      status := if allPassed tests then .passed else .failed,
      coverage := 0 }
  else
    { id := "performance", name := "Performance Tests", tests := [],
      status := .failed, coverage := 0 }

/-- The case runAccessibilityTest returns per page
(testing-engine.ts:625). -/
def accessibilityCase (p : String) : TestCase :=
  ⟨"a11y", "Accessibility Test - " ++ p, .passed⟩

/-- runAccessibilityTests (testing-engine.ts:446): one case per probed
page; the catch path sets status failed without pushing any case. -/
def runAccessibilityTests (setupOk : Bool) : TestSuite :=
  if setupOk then
    let tests := ["/", "/login", "/register"].map accessibilityCase
    { id := "accessibility", name := "Accessibility Tests",
      tests := tests,
      status := if allPassed tests then .passed else .failed,
      coverage := 0 }
  else
    { id := "accessibility", name := "Accessibility Tests", tests := [],
      status := .failed, coverage := 0 }

/-- takeScreenshots (testing-engine.ts:636): a stub with no cases. -/
def takeScreenshots : List TestCase := []

/-- runVisualRegressionTests (testing-engine.ts:496): on the success
path the status is set to passed unconditionally (line 523); the catch
path sets status failed without pushing any case. -/
def runVisualRegressionTests (setupOk : Bool) : TestSuite :=
  if setupOk then
    { id := "visual", name := "Visual Regression Tests",
      tests := takeScreenshots, status := .passed, coverage := 0 }
  else
    { id := "visual", name := "Visual Regression Tests", tests := [],
      status := .failed, coverage := 0 }

end TestingEngine

/-! ### Deployment manager (src/deployment/deployment-manager.ts) -/

namespace DeploymentManager

/-- Target environment of a deployment. -/
inductive Environment
  | development
  | staging
  | production
  deriving DecidableEq

/-- Deployment status (types.ts, DeploymentResult.status). -/
inductive DeployStatus
  | pending
  | deploying
  | success
  | failed
  | rolled_back
  deriving DecidableEq

/-- The deployment configuration field deploy reads for rollback. -/
structure DeployConfig where
  rollbackOnFailure : Bool
  deriving DecidableEq

/-- The external outcomes one deploy call consumes: whether the
required files exist, whether the build and the provider routine
succeed, whether a URL was obtained, whether the deployed URL responds
before the startup timeout, the per-endpoint health-check outcomes,
and the smoke-test script presence and outcome. -/
structure DeployWorld where
  preChecksOk : Bool
  buildOk : Bool
  providerOk : Bool
  urlAvailable : Bool
  startupOk : Bool
  healthChecksEnabled : Bool
  healthCheckResults : List Bool
  smokeScriptPresent : Bool
  smokeOk : Bool
  deriving DecidableEq

/-- The failure classes that can abort a deploy call. -/
inductive DeployFailure
  | precheck
  | build
  | provider
  | startupTimeout
  | smoke
  deriving DecidableEq

/-- The first exception deploy's try block raises, if any
(deployment-manager.ts:44-83).  Pre-checks throw on a missing required
file; buildApplication and the provider routine rethrow their
failures; runPostDeploymentChecks is skipped entirely when no URL was
set (line 326); waitForApplication throws on timeout in every
environment (line 365); runHealthChecks never throws (its failures are
only logged, lines 379-391); runSmokeTests rethrows only in production
(line 421). -/
def deployFailure (env : Environment) (w : DeployWorld) :
    Option DeployFailure :=
  if !w.preChecksOk then some .precheck
  else if !w.buildOk then some .build
  else if !w.providerOk then some .provider
  else if !w.urlAvailable then none
  else if !w.startupOk then some .startupTimeout
  else if w.smokeScriptPresent && !w.smokeOk && env == .production then
    some .smoke
  else none

/-- The health-check log lines runHealthChecks appends
(deployment-manager.ts:384-389), produced only when a URL exists, the
application started and health checks are configured. -/
def healthCheckLogs (w : DeployWorld) : List String :=
  if w.preChecksOk && w.buildOk && w.providerOk && w.urlAvailable &&
      w.startupOk && w.healthChecksEnabled then
    w.healthCheckResults.map
      (fun ok => if ok then "Health check passed" else "Health check failed")
  else []

/-- The terminal status of deploy (deployment-manager.ts:79-92): success
when the try block completes; otherwise failed, upgraded to rolled_back
when rollback-on-failure is configured and the environment is not
development (rollbackDeployment's stub cannot itself fail). -/
def deployStatus (cfg : DeployConfig) (env : Environment)
    (w : DeployWorld) : DeployStatus :=
  match deployFailure env w with
  | none => .success
  | some _ =>
    if cfg.rollbackOnFailure && env != .development then .rolled_back
    else .failed

end DeploymentManager

/-! ### Concurrency model for healApp

healApp (healing-system.ts:74) runs on the Node event loop: every
fs/exec/network call is awaited, so between any two such operations of
one call the scheduler may run another call's continuation.  A call is
abstracted to its sequence of suspension-separated operations; two
concurrent calls produce any interleaving of their two sequences.
healApp consults no per-application in-flight registry before
sweeping, so its operation sequence is a function of its inputs
alone. -/

namespace HealingSystem

/-- One awaited operation of a healApp call.  `fileOp 0` is the backup
copy of createBackup, `fileOp 1` a write of applyFix, `fileOp 2` the
restore copy of rollback.  `reject` stands for refusing or parking the
call because another sweep for the same application is in flight; no
code path of healApp emits it. -/
inductive HealAction
  | analyze
  | queueWrite
  | fileOp (k : Nat)
  | reject
  deriving DecidableEq

/-- The file operations the applyFix loop performs: one write per
change until the first failing change (whose existence check aborts
the loop). -/
def applyChangeOps (t : Tree) : List FileChange → List HealAction
  | [] => []
  | c :: cs =>
    match applyFileChange t c with
    | none => [HealAction.fileOp 1]
    | some t2 => HealAction.fileOp 1 :: applyChangeOps t2 cs

/-- The file operations of one fixError call, following the branches
of `fixError`: the backup copy, then the apply writes, then a restore
copy when the call rolls back. -/
def fixErrorTrace (cfg : Config) (o : FixOracle) (st : FsState) :
    List HealAction :=
  HealAction.fileOp 0 ::
    match o.genFix with
    | none => []
    | some fix0 =>
      let ops := applyChangeOps st.appTree fix0.changes
      let ap := applyChanges st.appTree fix0.changes
      if !ap.1 then ops ++ [HealAction.fileOp 2]
      else if !(testFix cfg.testing.autoFix o.validation) &&
          cfg.healing.rollbackThreshold > 0 then
        ops ++ [HealAction.fileOp 2]
      else ops

/-- The operations of the processHealingQueue sweep, threading the
file-system state exactly as `sweepErrors` does. -/
def sweepTrace (cfg : Config) (os : Nat → FixOracle) :
    Nat → FsState → List ErrorInfo → List HealAction
  | _, _, [] => []
  | k, st, e :: es =>
    if isAutoSeverity e.severity then
      fixErrorTrace cfg (os k) st ++
        sweepTrace cfg os (k + 1) (fixError cfg (os k) st e).state es
    else
      sweepTrace cfg os k st es

/-- The operation sequence of one healApp call
(healing-system.ts:74-98): analyze, and when errors were found, the
queue write followed by the sweep.  No step consults an in-flight set
and no step can emit `reject`. -/
def healAppTrace (cfg : Config) (os : Nat → FixOracle) (st : FsState)
    (errs : List ErrorInfo) : List HealAction :=
  HealAction.analyze ::
    if errs.isEmpty then []
    else HealAction.queueWrite :: sweepTrace cfg os 0 st errs

/-- Tag each operation with the index of the concurrent call that
performs it. -/
def tagHeal (i : Nat) (l : List HealAction) : List (Nat × HealAction) :=
  l.map (fun a => (i, a))

/-- Whether `w` is an event-loop schedule of the two operation
sequences `l` and `r`: each step of `w` is the next pending operation
of one of the two calls, and both calls run to completion. -/
def checkInterleaving :
    List (Nat × HealAction) → List (Nat × HealAction) →
      List (Nat × HealAction) → Bool
  | l, r, [] => l.isEmpty && r.isEmpty
  | l, r, x :: w =>
    (match l with
     | [] => false
     | a :: l2 => a == x && checkInterleaving l2 r w) ||
    (match r with
     | [] => false
     | b :: r2 => b == x && checkInterleaving l r2 w)

/-- The tree and error outcome a restore leaves behind. -/
structure RestoreOutcome where
  failure : Option String
  tree : Tree
  deriving DecidableEq

/-- rollback (healing-system.ts:768) at the granularity of individual
disk operations: when the backup directory exists the source first
removes the whole working tree (fs.remove, line 776) and then copies
the backup into place file by file (fs.copy, line 777) with no staging
location.  `failAfter = some k` models the copy failing after `k`
files were copied; `none` models a completed copy.  A missing backup
throws before anything is removed. -/
def rollbackWithCopyFailure (st : FsState) (backupId : String)
    (failAfter : Option Nat) : RestoreOutcome :=
  match st.backups.lookup backupId with
  | none => ⟨some "Backup not found", st.appTree⟩
  | some btree =>
    match failAfter with
    | none => ⟨none, btree⟩
    | some k =>
      if btree.length ≤ k then ⟨none, btree⟩
      else ⟨some "copy failed", btree.take k⟩

/-- Is this operation a file operation (backup copy, write, restore)? -/
def isFileOp : HealAction → Bool
  | .fileOp _ => true
  | _ => false

/-- Does the schedule contain a file operation of call `i`? -/
def hasFileOpOf (i : Nat) (h : List (Nat × HealAction)) : Bool :=
  h.any (fun p => p.1 == i && isFileOp p.2)

/-- After this point, does a file operation of call 2 occur with a file
operation of call 1 after it? -/
def fileOpAfterPair : List (Nat × HealAction) → Bool
  | [] => false
  | p :: rest =>
    (p.1 == 2 && isFileOp p.2 && hasFileOpOf 1 rest) ||
      fileOpAfterPair rest

/-- Does the schedule run a file operation of call 1, then one of
call 2, then another of call 1 — i.e. do the two calls' file
operations interleave? -/
def interleavedFileOps : List (Nat × HealAction) → Bool
  | [] => false
  | p :: rest =>
    (p.1 == 1 && isFileOp p.2 && fileOpAfterPair rest) ||
      interleavedFileOps rest

end HealingSystem

/-! ## Concrete instances

Sample inputs used by the closed instantiations of the theorems
below. -/

namespace Samples

open HealingSystem TestingEngine DeploymentManager

/-- A configuration with rollback threshold 2 and auto-fix testing on. -/
def cfg2 : Config := ⟨⟨2⟩, ⟨true⟩⟩

/-- A critical syntax error in a.ts, as produced by an analyzer. -/
def errA : ErrorInfo :=
  ⟨"err-1", .syn, .critical, "a.ts", 10, "Cannot find name x",
   false, false, 0⟩

/-- A medium-severity lint warning, not auto-processed. -/
def errM : ErrorInfo :=
  ⟨"err-2", .syn, .medium, "b.ts", 3, "unused variable",
   false, false, 0⟩

/-- A proposed fix replacing the contents of a.ts. -/
def fixA : Fix :=
  ⟨"fix-1", "err-1", "declare x", [⟨"a.ts", .update, some "fixed"⟩],
   1, false, false, ⟨"", 0, ["a.ts"]⟩⟩

/-- A working tree holding one file, with an empty backup store. -/
def stA : FsState := ⟨[("a.ts", "orig")], []⟩

/-- An oracle whose synthesis proposes `fixA` and whose validation
fails at the lint stage. -/
def oValFail : FixOracle :=
  ⟨"backup-1", 5, some fixA, ⟨false, true, true⟩⟩

/-- An oracle whose synthesis proposes `fixA` and whose validation
passes. -/
def oValPass : FixOracle :=
  ⟨"backup-1", 5, some fixA, ⟨true, true, true⟩⟩

/-- An oracle whose synthesis yields no proposal. -/
def oNoFix : FixOracle :=
  ⟨"backup-1", 3, none, ⟨true, true, true⟩⟩

/-- The trace of one healApp call on `stA` with the single error
`errA` and oracle `oValPass`: analyze, queue write, backup copy,
apply write. -/
def traceA : List HealAction :=
  healAppTrace cfg2 (fun _ => oValPass) stA [errA]

/-- A schedule of two concurrent copies of `traceA`: call 1 runs up to
its backup copy, call 2 then runs to completion, call 1 finishes —
the two calls' file operations interleave. -/
def scheduleA : List (Nat × HealAction) :=
  [(1, .analyze), (1, .queueWrite), (1, .fileOp 0),
   (2, .analyze), (2, .queueWrite), (2, .fileOp 0), (2, .fileOp 1),
   (1, .fileOp 1)]

/-- A state whose backup store holds a two-file backup under "b1". -/
def stB : FsState :=
  ⟨[("x.ts", "old")], [("b1", [("a.ts", "1"), ("b.ts", "2")])]⟩

/-- A deployment world where everything succeeds except that the
deployed URL never responds before the startup timeout. -/
def wStartupTimeout : DeployWorld :=
  ⟨true, true, true, true, false, true, [], false, true⟩

/-- A deployment world where everything succeeds except one failing
health-check endpoint. -/
def wHealthFail : DeployWorld :=
  ⟨true, true, true, true, true, true, [false], false, true⟩

end Samples

/-! ## Shared lemmas -/

namespace HealingSystem

/-- Looking up a key appended to a history that does not yet contain it
finds the appended value. -/
theorem lookup_append_single {β : Type} (l : List (String × β))
    (k : String) (v : β) (h : l.lookup k = none) :
    (l ++ [(k, v)]).lookup k = some v := by
  induction l with
  | nil => simp [List.lookup]
  | cons p l ih =>
    obtain ⟨a, b⟩ := p
    by_cases hk : k = a
    · subst hk
      simp only [List.lookup, beq_self_eq_true] at h
      exact Option.noConfusion h
    · have hb : (k == a) = false := by simp [hk]
      simp only [List.lookup, hb] at h
      simp only [List.cons_append, List.lookup, hb]
      exact ih h

/-- Deleting a key from an association list makes its lookup fail. -/
theorem lookup_filter_self {β : Type} (q : List (String × β))
    (k : String) :
    (q.filter (fun p => p.1 != k)).lookup k = none := by
  induction q with
  | nil => simp
  | cons p q ih =>
    obtain ⟨a, b⟩ := p
    by_cases hk : a = k
    · subst hk
      have hb : (a != a) = false := by simp
      simpa [List.filter_cons, hb] using ih
    · have hb : (a != k) = true := by simp [hk]
      have hb2 : (k == a) = false := by
        have : ¬k = a := fun h2 => hk h2.symm
        simp [this]
      simp only [List.filter_cons, hb, if_pos, List.lookup, hb2]
      simpa using ih

/-- fixError when generateFix yields no proposal: the call returns
null, the error record is untouched, and the backup created at the
start of the call remains appended to the history. -/
theorem fixError_genFix_none (cfg : Config) (o : FixOracle)
    (st : FsState) (err : ErrorInfo) (h : o.genFix = none) :
    fixError cfg o st err =
      ⟨none, err,
       { st with backups := st.backups ++ [(o.backupId, st.appTree)] }⟩ := by
  simp [fixError, createBackup, h]

end HealingSystem

/-! ## Claim theorems -/

namespace HealingSystem

/-- Claim C1: when the proposed fix applies successfully, validation
returns false and the configured rollback threshold is greater than
zero, fixError restores the working tree to the exact state captured
in the backup taken at the start of the attempt — the state
immediately before apply — and the returned Fix has applied=false.
The backup id is fresh, as the source derives it from Date.now. -/
theorem fixError_rollback_on_validation_failure
    (cfg : Config) (o : FixOracle) (st : FsState) (err : ErrorInfo)
    (fix0 : Fix)
    (hgen : o.genFix = some fix0)
    (hfresh : st.backups.lookup o.backupId = none)
    (happly : (applyChanges st.appTree fix0.changes).1 = true)
    (hval : testFix cfg.testing.autoFix o.validation = false)
    (hthr : 0 < cfg.healing.rollbackThreshold) :
    (fixError cfg o st err).state.appTree = st.appTree ∧
    (fixError cfg o st err).state.backups =
      st.backups ++ [(o.backupId, st.appTree)] ∧
    (fixError cfg o st err).fix =
      some { fix0 with tested := false, applied := false } := by
  have hlk : (st.backups ++ [(o.backupId, st.appTree)]).lookup
      o.backupId = some st.appTree :=
    lookup_append_single st.backups o.backupId st.appTree hfresh
  simp only [fixError, createBackup, hgen, hval, hthr, happly,
    Bool.not_true, Bool.not_false, Bool.false_and, Bool.true_and,
    decide_eq_true_eq, rollback, hlk]
  simp [happly, hval, hthr, rollback, hlk]

/-- Closed instance of the C1 theorem: threshold 2, a one-file tree, a
successful apply and a failing lint validation. -/
theorem fixError_rollback_on_validation_failure_witness :
    (fixError Samples.cfg2 Samples.oValFail Samples.stA
        Samples.errA).state.appTree = Samples.stA.appTree ∧
    (fixError Samples.cfg2 Samples.oValFail Samples.stA
        Samples.errA).state.backups =
      Samples.stA.backups ++
        [(Samples.oValFail.backupId, Samples.stA.appTree)] ∧
    (fixError Samples.cfg2 Samples.oValFail Samples.stA
        Samples.errA).fix =
      some { Samples.fixA with tested := false, applied := false } :=
  fixError_rollback_on_validation_failure Samples.cfg2 Samples.oValFail
    Samples.stA Samples.errA Samples.fixA (by decide) (by decide)
    (by decide) (by decide) (by decide)

/-- Claim C4 (amended): when the Fix Synthesizer returns null, the
fixError call returns null and leaves the error record untouched
(attempted=false, succeeded=false when they started false), but it
does create exactly one Backup — the backup is taken before the
synthesizer is consulted, so it remains appended to the history. -/
theorem fixError_nullSynthesis_creates_backup
    (cfg : Config) (o : FixOracle) (st : FsState) (err : ErrorInfo)
    (h : o.genFix = none) :
    (fixError cfg o st err).fix = none ∧
    (fixError cfg o st err).err = err ∧
    (fixError cfg o st err).state.appTree = st.appTree ∧
    (fixError cfg o st err).state.backups =
      st.backups ++ [(o.backupId, st.appTree)] := by
  rw [fixError_genFix_none cfg o st err h]
  exact ⟨rfl, rfl, rfl, rfl⟩

/-- Closed instance of the C4 theorem: a null proposal on a one-file
tree leaves the error untouched and appends one backup. -/
theorem fixError_nullSynthesis_creates_backup_witness :
    (fixError Samples.cfg2 Samples.oNoFix Samples.stA
        Samples.errA).fix = none ∧
    (fixError Samples.cfg2 Samples.oNoFix Samples.stA
        Samples.errA).err = Samples.errA ∧
    (fixError Samples.cfg2 Samples.oNoFix Samples.stA
        Samples.errA).state.appTree = Samples.stA.appTree ∧
    (fixError Samples.cfg2 Samples.oNoFix Samples.stA
        Samples.errA).state.backups =
      Samples.stA.backups ++
        [(Samples.oNoFix.backupId, Samples.stA.appTree)] :=
  fixError_nullSynthesis_creates_backup Samples.cfg2 Samples.oNoFix
    Samples.stA Samples.errA (by decide)

/-- Counterexample to claim C4 as stated: for a call in which the
synthesizer returns null, it is not the case that the call returns
null, leaves the record untouched and creates no Backup — the backup
history grows by one entry. -/
theorem fixError_nullSynthesis_no_backup_cex :
    ¬ ((fixError Samples.cfg2 Samples.oNoFix Samples.stA
          Samples.errA).fix = none ∧
       (fixError Samples.cfg2 Samples.oNoFix Samples.stA
          Samples.errA).err = Samples.errA ∧
       (fixError Samples.cfg2 Samples.oNoFix Samples.stA
          Samples.errA).state.backups = Samples.stA.backups) := by
  decide

/-- Claim C2: the sweep makes a fix attempt exactly for the entries of
critical or high severity (in queue order), and every other entry of
the queue comes out of the sweep unchanged, its fix_attempted flag
untouched. -/
theorem sweepErrors_severity_gate (cfg : Config) (os : Nat → FixOracle)
    (k : Nat) (st : FsState) (errs : List ErrorInfo) :
    (sweepErrors cfg os k st errs).2.2 =
      (errs.filter (fun e => isAutoSeverity e.severity)).map
        (fun e => e.id) ∧
    (sweepErrors cfg os k st errs).2.1.length = errs.length ∧
    (∀ pr ∈ (sweepErrors cfg os k st errs).2.1.zip errs,
      isAutoSeverity pr.2.severity = true ∨ pr.1 = pr.2) := by
  induction errs generalizing k st with
  | nil => simp [sweepErrors]
  | cons e es ih =>
    by_cases h : isAutoSeverity e.severity = true
    · obtain ⟨i1, i2, i3⟩ :=
        ih (k + 1) (fixError cfg (os k) st e).state
      refine ⟨?_, ?_, ?_⟩
      · simp [sweepErrors, h, i1, List.filter_cons]
      · simp [sweepErrors, h, i2]
      · simp only [sweepErrors, h, if_true]
        intro pr hpr
        rcases List.mem_cons.mp hpr with h1 | h1
        · subst h1
          exact Or.inl h
        · exact i3 pr h1
    · have hb : isAutoSeverity e.severity = false := by
        simpa using h
      obtain ⟨i1, i2, i3⟩ := ih k st
      refine ⟨?_, ?_, ?_⟩
      · simp [sweepErrors, hb, i1, List.filter_cons]
      · simp [sweepErrors, hb, i2]
      · simp only [sweepErrors, hb, Bool.false_eq_true, if_false]
        intro pr hpr
        rcases List.mem_cons.mp hpr with h1 | h1
        · subst h1
          exact Or.inr rfl
        · exact i3 pr h1

/-- Claim C9 (amended): after a sweep in which synthesis fails for an
auto-processed error, the error record is unchanged — still
unresolved — but the application's queue entry is deleted at the end
of the sweep, so the error is not retained for the next sweep. -/
theorem processHealingQueue_deletes_entry
    (cfg : Config) (os : Nat → FixOracle) (st : FsState)
    (q : List (String × List ErrorInfo)) (appId : String)
    (e : ErrorInfo) (rest : List ErrorInfo)
    (hq : q.lookup appId = some (e :: rest))
    (hsev : isAutoSeverity e.severity = true)
    (hgen : (os 0).genFix = none) :
    ((processHealingQueue cfg os st q appId).2.1).lookup appId =
      none ∧
    ∃ tail, (processHealingQueue cfg os st q appId).2.2.1 =
      e :: tail := by
  have he : (fixError cfg (os 0) st e).err = e := by
    rw [fixError_genFix_none cfg (os 0) st e hgen]
  refine ⟨?_, ?_⟩
  · simp only [processHealingQueue, hq]
    exact lookup_filter_self q appId
  · refine ⟨(sweepErrors cfg os 1
      (fixError cfg (os 0) st e).state rest).2.1, ?_⟩
    simp only [processHealingQueue, hq, sweepErrors, hsev, if_true, he]

/-- Closed instance of the C9 theorem: one critical error, null
synthesis — the record survives unchanged and the queue entry is
gone. -/
theorem processHealingQueue_deletes_entry_witness :
    ((processHealingQueue Samples.cfg2 (fun _ => Samples.oNoFix) Samples.stA
        [("app1", [Samples.errA])] "app1").2.1).lookup "app1" =
      none ∧
    ∃ tail, (processHealingQueue Samples.cfg2 (fun _ => Samples.oNoFix)
        Samples.stA [("app1", [Samples.errA])] "app1").2.2.1 =
      Samples.errA :: tail :=
  processHealingQueue_deletes_entry Samples.cfg2 (fun _ => Samples.oNoFix)
    Samples.stA [("app1", [Samples.errA])] "app1" Samples.errA []
    (by decide) (by decide) (by decide)

/-- Counterexample to claim C9 as stated: the queue held the error
before the sweep, the error comes out of the sweep unresolved, yet the
application has no healing-queue entry at all afterwards — the error
is not "still in (or restored to)" the queue. -/
theorem processHealingQueue_entry_gone_cex :
    ([("app1", [Samples.errA])] :
        List (String × List ErrorInfo)).lookup "app1" =
      some [Samples.errA] ∧
    (processHealingQueue Samples.cfg2 (fun _ => Samples.oNoFix) Samples.stA
        [("app1", [Samples.errA])] "app1").2.2.1 = [Samples.errA] ∧
    ((processHealingQueue Samples.cfg2 (fun _ => Samples.oNoFix) Samples.stA
        [("app1", [Samples.errA])] "app1").2.1).lookup "app1" =
      none := by
  decide

/-- Claim C6 (amended): restore is not staged — when the backup
exists, a completed copy leaves exactly the backup's tree, but the
working tree is deleted before the copy, so a copy failure leaves a
truncated copy of the backup (in general neither the pre-restore nor
the fully-restored state); a missing backup fails with the not-found
error before anything is deleted, leaving the tree untouched. -/
theorem rollback_restore_semantics (st : FsState) (bid : String)
    (failAfter : Option Nat) (btree : Tree)
    (hfound : st.backups.lookup bid = some btree) :
    ((rollbackWithCopyFailure st bid failAfter).failure = none →
      (rollbackWithCopyFailure st bid failAfter).tree = btree) ∧
    (∃ k, (rollbackWithCopyFailure st bid failAfter).tree =
      btree.take k) ∧
    (rollbackWithCopyFailure st bid none).failure = none ∧
    (∀ st2 : FsState, ∀ bid2 : String, ∀ f2 : Option Nat,
      st2.backups.lookup bid2 = none →
        (rollbackWithCopyFailure st2 bid2 f2).failure =
            some "Backup not found" ∧
          (rollbackWithCopyFailure st2 bid2 f2).tree =
            st2.appTree) := by
  refine ⟨?_, ?_, ?_, ?_⟩
  · intro h
    cases failAfter with
    | none => simp [rollbackWithCopyFailure, hfound]
    | some k =>
      by_cases hk : btree.length ≤ k
      · simp [rollbackWithCopyFailure, hfound, hk]
      · simp [rollbackWithCopyFailure, hfound, hk] at h
  · cases failAfter with
    | none =>
      exact ⟨btree.length, by
        simp [rollbackWithCopyFailure, hfound]⟩
    | some k =>
      by_cases hk : btree.length ≤ k
      · exact ⟨btree.length, by
          simp [rollbackWithCopyFailure, hfound, hk]⟩
      · exact ⟨k, by simp [rollbackWithCopyFailure, hfound, hk]⟩
  · simp [rollbackWithCopyFailure, hfound]
  · intro st2 bid2 f2 h2
    simp [rollbackWithCopyFailure, h2]

/-- Closed instance of the C6 theorem at a two-file backup with the
copy failing after one file. -/
theorem rollback_restore_semantics_witness :
    ((rollbackWithCopyFailure Samples.stB "b1" (some 1)).failure =
        none →
      (rollbackWithCopyFailure Samples.stB "b1" (some 1)).tree =
        [("a.ts", "1"), ("b.ts", "2")]) ∧
    (∃ k, (rollbackWithCopyFailure Samples.stB "b1" (some 1)).tree =
      ([("a.ts", "1"), ("b.ts", "2")] : Tree).take k) ∧
    (rollbackWithCopyFailure Samples.stB "b1" none).failure = none ∧
    (∀ st2 : FsState, ∀ bid2 : String, ∀ f2 : Option Nat,
      st2.backups.lookup bid2 = none →
        (rollbackWithCopyFailure st2 bid2 f2).failure =
            some "Backup not found" ∧
          (rollbackWithCopyFailure st2 bid2 f2).tree =
            st2.appTree) :=
  rollback_restore_semantics Samples.stB "b1" (some 1)
    [("a.ts", "1"), ("b.ts", "2")] (by decide)

/-- Counterexample to claim C6 as stated: a restore whose copy fails
after one of the backup's two files leaves a tree that is neither the
pre-restore tree nor the fully-restored backup — the remove-then-copy
restore is not atomic. -/
theorem rollback_partial_overwrite_cex :
    (rollbackWithCopyFailure Samples.stB "b1"
        (some 1)).failure.isSome = true ∧
    (rollbackWithCopyFailure Samples.stB "b1" (some 1)).tree ≠
      Samples.stB.appTree ∧
    (rollbackWithCopyFailure Samples.stB "b1" (some 1)).tree ≠
      [("a.ts", "1"), ("b.ts", "2")] := by
  decide

end HealingSystem

namespace Analyzers

/-- Claim C7: the failing input is an analyzer run whose tool exits
non-zero with parseable diagnostics — the normal outcome when issues
exist.  The source's catch blocks parse error.stdout but never convert
the parsed diagnostics (the conversion is only a comment, contradicted
by the code around it), so runESLint and auditDirectory return no
records there, while the spec's contract — also shown by the zero-exit
normalization path of the same functions — produces the normalized
records. -/
theorem analyzers_drop_nonzero_exit_diagnostics_bug :
    runESLint (.nonZeroParseable
      [⟨"a.ts", [⟨2, 1, "x is not defined"⟩]⟩]) = [] ∧
    runESLintSpec (.nonZeroParseable
      [⟨"a.ts", [⟨2, 1, "x is not defined"⟩]⟩]) =
      [⟨"eslint", .syn, .high, "a.ts", 1, "x is not defined",
        false, false, 0⟩] ∧
    runESLint (.zeroExit [⟨"a.ts", [⟨2, 1, "x is not defined"⟩,
        ⟨1, 7, "unused variable"⟩]⟩]) =
      [⟨"eslint", .syn, .high, "a.ts", 1, "x is not defined",
        false, false, 0⟩,
       ⟨"eslint", .syn, .medium, "a.ts", 7, "unused variable",
        false, false, 0⟩] ∧
    auditDirectory "frontend" (.nonZeroParseable
      [⟨"lodash", "high", "Prototype Pollution"⟩]) = [] ∧
    auditDirectorySpec "frontend" (.nonZeroParseable
      [⟨"lodash", "high", "Prototype Pollution"⟩]) =
      [⟨"security", .security, .high, "package.json (frontend)", 0,
        "Security vulnerability in lodash: Prototype Pollution",
        false, false, 0⟩] := by
  decide

end Analyzers

namespace TestingEngine

/-- Claim C5 (amended): for unit, integration and e2e suites the
status is passed exactly when every contained case passed, with a
setup failure recorded as a synthetic failing case; for performance,
accessibility and visual suites the status only reflects whether
setup succeeded — a setup failure yields a failed suite with no cases
at all (so every contained case is vacuously passed while the suite
is failed), and the visual suite's success path sets passed
unconditionally. -/
theorem suite_status_aggregation
    (genOk hasFrontend hasBackend setupOk : Bool)
    (frontendCases backendCases : List TestCase) :
    (runUnitTests genOk hasFrontend hasBackend frontendCases
        backendCases).status =
      (if allPassed (runUnitTests genOk hasFrontend hasBackend
          frontendCases backendCases).tests then .passed
       else .failed) ∧
    (runIntegrationTests setupOk).status =
      (if allPassed (runIntegrationTests setupOk).tests then .passed
       else .failed) ∧
    (runE2ETests setupOk).status =
      (if allPassed (runE2ETests setupOk).tests then .passed
       else .failed) ∧
    (runPerformanceTests setupOk).status =
      (if setupOk then .passed else .failed) ∧
    (runAccessibilityTests setupOk).status =
      (if setupOk then .passed else .failed) ∧
    (runVisualRegressionTests setupOk).status =
      (if setupOk then .passed else .failed) ∧
    (runPerformanceTests false).tests = [] ∧
    (runAccessibilityTests false).tests = [] ∧
    (runVisualRegressionTests false).tests = [] := by
  cases genOk <;> cases setupOk <;>
    simp [runUnitTests, runIntegrationTests, runE2ETests,
      runPerformanceTests, runAccessibilityTests,
      runVisualRegressionTests, allPassed, lighthouseCase,
      accessibilityCase, syntheticFailCase, takeScreenshots]

/-- Counterexample to claim C5 as stated: a visual-regression suite
whose setup failed has every contained case passed (it contains none)
yet its aggregate status is not passed — the iff between suite status
and case statuses fails for this category. -/
theorem visual_suite_failed_all_cases_passed_cex :
    allPassed (runVisualRegressionTests false).tests = true ∧
    (runVisualRegressionTests false).status ≠ SuiteStatus.passed := by
  decide

/-- Claim C10 (amended): only unit suites carry the pass-rate
coverage — their coverage field always equals calculateCoverage of
their cases (the passed share times 100, rounded, 0 when empty) —
while every other category leaves coverage at 0 regardless of its
cases. -/
theorem coverage_pass_rate_only_unit
    (genOk hasFrontend hasBackend setupOk : Bool)
    (frontendCases backendCases : List TestCase) :
    (runUnitTests genOk hasFrontend hasBackend frontendCases
        backendCases).coverage =
      calculateCoverage (runUnitTests genOk hasFrontend hasBackend
        frontendCases backendCases).tests ∧
    (runIntegrationTests setupOk).coverage = 0 ∧
    (runE2ETests setupOk).coverage = 0 ∧
    (runPerformanceTests setupOk).coverage = 0 ∧
    (runAccessibilityTests setupOk).coverage = 0 ∧
    (runVisualRegressionTests setupOk).coverage = 0 ∧
    calculateCoverage [] = 0 := by
  cases genOk <;> cases setupOk <;>
    simp [runUnitTests, runIntegrationTests, runE2ETests,
      runPerformanceTests, runAccessibilityTests,
      runVisualRegressionTests, calculateCoverage, syntheticFailCase,
      allPassed]

/-- Counterexample to claim C10 as stated: a performance suite whose
single lighthouse case passed reports coverage 0, not the 100 the
pass-rate formula gives — coverage is not the pass-rate for every
suite the orchestrator returns. -/
theorem performance_coverage_not_pass_rate_cex :
    (runPerformanceTests true).coverage ≠
      calculateCoverage (runPerformanceTests true).tests := by
  simp [runPerformanceTests, calculateCoverage, lighthouseCase]

end TestingEngine

namespace DeploymentManager

/-- Claim C8 (amended): with pre-checks, build and provider succeeded
and a URL obtained, a startup timeout aborts the deployment in every
environment (failed, or rolled_back exactly when rollback is
configured and the environment is not development); the individual
health-check outcomes never affect the deployment status in any
environment, though a failure is logged; and after a successful
startup only a production smoke-test failure keeps the deployment
from succeeding. -/
theorem deploy_abort_semantics (cfg : DeployConfig)
    (env : Environment) (w : DeployWorld)
    (hpre : w.preChecksOk = true) (hb : w.buildOk = true)
    (hp : w.providerOk = true) (hurl : w.urlAvailable = true) :
    (w.startupOk = false →
      deployStatus cfg env w =
        (if cfg.rollbackOnFailure && env != .development then
          .rolled_back else .failed)) ∧
    (∀ rs, deployStatus cfg env
      { w with healthCheckResults := rs } = deployStatus cfg env w) ∧
    (false ∈ w.healthCheckResults → w.startupOk = true →
      w.healthChecksEnabled = true →
      "Health check failed" ∈ healthCheckLogs w) ∧
    (w.startupOk = true →
      (deployStatus cfg env w = .success ↔
        (w.smokeScriptPresent && !w.smokeOk && env == .production)
          = false)) := by
  refine ⟨?_, ?_, ?_, ?_⟩
  · intro hs
    simp [deployStatus, deployFailure, hpre, hb, hp, hurl, hs]
  · intro rs
    rfl
  · intro hmem hs hhc
    simp only [healthCheckLogs, hpre, hb, hp, hurl, hs, hhc,
      Bool.and_self, Bool.true_and, if_true, List.mem_map]
    exact ⟨false, hmem, rfl⟩
  · intro hs
    by_cases hsm :
        (w.smokeScriptPresent && !w.smokeOk && env == .production)
          = true
    · have hne : deployStatus cfg env w ≠ .success := by
        cases hflag : cfg.rollbackOnFailure && env != .development <;>
          simp [deployStatus, deployFailure, hpre, hb, hp, hurl, hs,
            hsm, hflag]
      simp [hne, hsm]
    · have hsm2 :
          (w.smokeScriptPresent && !w.smokeOk && env == .production)
            = false := by
        simpa using hsm
      simp [deployStatus, deployFailure, hpre, hb, hp, hurl, hs, hsm2]

/-- Closed instance of the C8 theorem: no rollback configured, target
development, a world whose startup times out. -/
theorem deploy_abort_semantics_witness :
    (Samples.wStartupTimeout.startupOk = false →
      deployStatus ⟨false⟩ .development Samples.wStartupTimeout =
        (if (false : Bool) &&
            (Environment.development != Environment.development) then
          .rolled_back else .failed)) ∧
    (∀ rs, deployStatus ⟨false⟩ .development
      { Samples.wStartupTimeout with healthCheckResults := rs } =
        deployStatus ⟨false⟩ .development Samples.wStartupTimeout) ∧
    (false ∈ Samples.wStartupTimeout.healthCheckResults →
      Samples.wStartupTimeout.startupOk = true →
      Samples.wStartupTimeout.healthChecksEnabled = true →
      "Health check failed" ∈
        healthCheckLogs Samples.wStartupTimeout) ∧
    (Samples.wStartupTimeout.startupOk = true →
      (deployStatus ⟨false⟩ .development Samples.wStartupTimeout =
          .success ↔
        (Samples.wStartupTimeout.smokeScriptPresent &&
            !Samples.wStartupTimeout.smokeOk &&
            (Environment.development == Environment.production))
          = false)) :=
  deploy_abort_semantics ⟨false⟩ .development Samples.wStartupTimeout
    (by decide) (by decide) (by decide) (by decide)

/-- Counterexample to claim C8 as stated: a startup timeout aborts the
deployment even in development (status failed), and a failing health
check does not abort it even in production (status success). -/
theorem deploy_startup_healthcheck_env_cex :
    deployStatus ⟨false⟩ .development Samples.wStartupTimeout =
      .failed ∧
    deployStatus ⟨false⟩ .production Samples.wHealthFail =
      .success := by
  decide

end DeploymentManager

namespace HealingSystem

/-- A sequence interleaves with an exhausted partner into itself. -/
theorem checkInterleaving_left_nil :
    ∀ l : List (Nat × HealAction), checkInterleaving l [] l = true := by
  intro l
  induction l with
  | nil => rfl
  | cons a l ih => simp [checkInterleaving, ih]

/-- Running all of one call, then all of the other, is a schedule. -/
theorem checkInterleaving_right_append :
    ∀ (r l : List (Nat × HealAction)),
      checkInterleaving l r (r ++ l) = true := by
  intro r
  induction r with
  | nil =>
    intro l
    simpa using checkInterleaving_left_nil l
  | cons b r ih =>
    intro l
    simp [checkInterleaving, ih l]

/-- A schedule extends on the left by steps of the first call. -/
theorem checkInterleaving_append_left
    (x : List (Nat × HealAction)) {y z w : List (Nat × HealAction)}
    (h : checkInterleaving y z w = true) :
    checkInterleaving (x ++ y) z (x ++ w) = true := by
  induction x with
  | nil => simpa using h
  | cons a x ih => simp [checkInterleaving, ih]

/-- hasFileOpOf is preserved by prepending. -/
theorem hasFileOpOf_append_right (i : Nat)
    (x m : List (Nat × HealAction)) (h : hasFileOpOf i m = true) :
    hasFileOpOf i (x ++ m) = true := by
  simp only [hasFileOpOf] at h
  simp [hasFileOpOf, List.any_append, h]

/-- A call whose operations include a file operation keeps it after
tagging. -/
theorem hasFileOpOf_tag (i : Nat) (l : List HealAction)
    (h : l.any isFileOp = true) :
    hasFileOpOf i (tagHeal i l) = true := by
  simp only [hasFileOpOf, tagHeal, List.any_map]
  simpa using h

/-- fileOpAfterPair is preserved by prepending. -/
theorem fileOpAfterPair_append_left
    (x m : List (Nat × HealAction)) (h : fileOpAfterPair m = true) :
    fileOpAfterPair (x ++ m) = true := by
  induction x with
  | nil => simpa using h
  | cons p x ih => simp [fileOpAfterPair, ih]

/-- A call-2 file operation followed by a call-1 file operation forms
the inner pattern. -/
theorem fileOpAfterPair_of_split (x m : List (Nat × HealAction))
    (hx : hasFileOpOf 2 x = true) (hm : hasFileOpOf 1 m = true) :
    fileOpAfterPair (x ++ m) = true := by
  induction x with
  | nil => simp [hasFileOpOf] at hx
  | cons p x ih =>
    rw [List.cons_append]
    by_cases hp : (p.1 == 2 && isFileOp p.2) = true
    · have hrest : hasFileOpOf 1 (x ++ m) = true :=
        hasFileOpOf_append_right 1 x m hm
      simp only [fileOpAfterPair, Bool.and_eq_true] at hp ⊢
      simp [hp.1, hp.2, hrest]
    · have hx2 : hasFileOpOf 2 x = true := by
        have hx3 := hx
        simp only [hasFileOpOf, List.any_cons] at hx3
        have hpf : (p.1 == 2 && isFileOp p.2) = false := by
          simpa using hp
        rw [hpf] at hx3
        simpa [hasFileOpOf] using hx3
      simp [fileOpAfterPair, ih hx2]

/-- interleavedFileOps is preserved by prepending. -/
theorem interleavedFileOps_append_left
    (x m : List (Nat × HealAction))
    (h : interleavedFileOps m = true) :
    interleavedFileOps (x ++ m) = true := by
  induction x with
  | nil => simpa using h
  | cons p x ih => simp [interleavedFileOps, ih]

/-- interleavedFileOps holds when the head is a call-1 file operation
and the tail contains the inner pattern. -/
theorem interleavedFileOps_cons_head (p : Nat × HealAction)
    (m : List (Nat × HealAction)) (hp1 : (p.1 == 1) = true)
    (hp2 : isFileOp p.2 = true) (hm : fileOpAfterPair m = true) :
    interleavedFileOps (p :: m) = true := by
  simp [interleavedFileOps, hp1, hp2, hm]

/-- Construction of an interleaved schedule: when a call's operation
sequence holds a file operation with another file operation after it,
running call 1 up to that first file operation, then all of call 2,
then the rest of call 1, is a schedule whose file operations
interleave. -/
theorem exists_interleaved_schedule (t a b : List HealAction)
    (f : HealAction) (hsplit : t = a ++ f :: b)
    (hf : isFileOp f = true) (hb : b.any isFileOp = true) :
    ∃ h : List (Nat × HealAction),
      checkInterleaving (tagHeal 1 t) (tagHeal 2 t) h = true ∧
      interleavedFileOps h = true := by
  refine ⟨tagHeal 1 a ++ (1, f) :: (tagHeal 2 t ++ tagHeal 1 b),
    ?_, ?_⟩
  · have h1 : tagHeal 1 t =
        (tagHeal 1 a ++ [(1, f)]) ++ tagHeal 1 b := by
      simp [hsplit, tagHeal]
    have h2 : tagHeal 1 a ++ (1, f) ::
          (tagHeal 2 t ++ tagHeal 1 b) =
        (tagHeal 1 a ++ [(1, f)]) ++
          (tagHeal 2 t ++ tagHeal 1 b) := by
      simp
    rw [h1, h2]
    exact checkInterleaving_append_left _
      (checkInterleaving_right_append _ _)
  · apply interleavedFileOps_append_left (tagHeal 1 a)
    apply interleavedFileOps_cons_head (1, f) _ rfl hf
    apply fileOpAfterPair_of_split
    · apply hasFileOpOf_tag
      simp [hsplit, List.any_append, List.any_cons, hf]
    · exact hasFileOpOf_tag 1 b hb

/-- No operation of the applyFix loop is a reject. -/
theorem reject_not_mem_applyChangeOps (cs : List FileChange) :
    ∀ t : Tree, HealAction.reject ∉ applyChangeOps t cs := by
  induction cs with
  | nil =>
    intro t
    simp [applyChangeOps]
  | cons c cs ih =>
    intro t
    cases h : applyFileChange t c with
    | none => simp [applyChangeOps, h]
    | some t2 => simp [applyChangeOps, h, ih t2]

/-- No operation of a fixError call is a reject. -/
theorem reject_not_mem_fixErrorTrace (cfg : Config) (o : FixOracle)
    (st : FsState) : HealAction.reject ∉ fixErrorTrace cfg o st := by
  cases hg : o.genFix with
  | none => simp [fixErrorTrace, hg]
  | some fix0 =>
    intro hmem
    simp only [fixErrorTrace, hg, List.mem_cons] at hmem
    have hops := reject_not_mem_applyChangeOps fix0.changes st.appTree
    rcases hmem with h | h
    · exact HealAction.noConfusion h
    · split at h
      · rcases List.mem_append.mp h with h2 | h2
        · exact hops h2
        · simp at h2
      · split at h
        · rcases List.mem_append.mp h with h2 | h2
          · exact hops h2
          · simp at h2
        · exact hops h

/-- No operation of a sweep is a reject. -/
theorem reject_not_mem_sweepTrace (cfg : Config)
    (os : Nat → FixOracle) :
    ∀ (errs : List ErrorInfo) (k : Nat) (st : FsState),
      HealAction.reject ∉ sweepTrace cfg os k st errs := by
  intro errs
  induction errs with
  | nil =>
    intro k st
    simp [sweepTrace]
  | cons e es ih =>
    intro k st
    by_cases h : isAutoSeverity e.severity = true
    · simp only [sweepTrace, h, if_true, List.mem_append]
      rintro (h2 | h2)
      · exact reject_not_mem_fixErrorTrace cfg (os k) st h2
      · exact ih (k + 1) _ h2
    · have hb2 : isAutoSeverity e.severity = false := by simpa using h
      simp only [sweepTrace, hb2, Bool.false_eq_true, if_false]
      exact ih k st

/-- No operation of a healApp call is a reject: healApp has no code
path that refuses or parks a concurrent call. -/
theorem reject_not_mem_healAppTrace (cfg : Config)
    (os : Nat → FixOracle) (st : FsState) (errs : List ErrorInfo) :
    HealAction.reject ∉ healAppTrace cfg os st errs := by
  simp only [healAppTrace, List.mem_cons]
  rintro (h | h)
  · exact HealAction.noConfusion h
  · split at h
    · simp at h
    · rcases List.mem_cons.mp h with h2 | h2
      · exact HealAction.noConfusion h2
      · exact reject_not_mem_sweepTrace cfg os errs 0 st h2

/-- Claim C3 (amended): healApp enforces no per-application mutual
exclusion.  Whenever one healApp sweep performs at least two file
operations — already the case for a single auto-processed error whose
proposal touches one file — two concurrent healApp calls for the same
application admit an event-loop schedule under which both complete
with their file operations interleaved; and no operation of a healApp
call rejects or parks a concurrent call. -/
theorem healApp_concurrent_calls_interleave (cfg : Config)
    (os : Nat → FixOracle) (st : FsState) (errs : List ErrorInfo)
    (a b : List HealAction) (f : HealAction)
    (hsplit : healAppTrace cfg os st errs = a ++ f :: b)
    (hf : isFileOp f = true) (hb : b.any isFileOp = true) :
    (∃ h : List (Nat × HealAction),
      checkInterleaving (tagHeal 1 (healAppTrace cfg os st errs))
        (tagHeal 2 (healAppTrace cfg os st errs)) h = true ∧
      interleavedFileOps h = true) ∧
    HealAction.reject ∉ healAppTrace cfg os st errs :=
  ⟨exists_interleaved_schedule (healAppTrace cfg os st errs) a b f
      hsplit hf hb,
   reject_not_mem_healAppTrace cfg os st errs⟩

/-- Closed instance of the C3 theorem: a one-error sweep whose trace
is analyze, queue write, backup copy, apply write. -/
theorem healApp_concurrent_calls_interleave_witness :
    (∃ h : List (Nat × HealAction),
      checkInterleaving (tagHeal 1 Samples.traceA)
        (tagHeal 2 Samples.traceA) h = true ∧
      interleavedFileOps h = true) ∧
    HealAction.reject ∉ Samples.traceA :=
  healApp_concurrent_calls_interleave Samples.cfg2
    (fun _ => Samples.oValPass) Samples.stA [Samples.errA]
    [.analyze, .queueWrite] [.fileOp 1] (.fileOp 0)
    (by decide) (by decide) (by decide)

/-- Counterexample to claim C3 as stated: `scheduleA` is a valid
event-loop schedule of two concurrent healApp calls for the same
application in which call 2 runs its file operations between file
operations of call 1 and both calls complete — the second call is
neither rejected nor queued, and the calls' file operations
interleave. -/
theorem healApp_concurrent_interleaving_cex :
    checkInterleaving (tagHeal 1 Samples.traceA)
      (tagHeal 2 Samples.traceA) Samples.scheduleA = true ∧
    interleavedFileOps Samples.scheduleA = true ∧
    HealAction.reject ∉ Samples.traceA := by
  decide

end HealingSystem

end AutoWeb
